import Mathlib

/-!
# thumbs: service registration and lifecycle

A shallow embedding of `rpc/server.go` and of the RPC-serve actor of `main.go`.

The coordination store, the network and the gRPC library are external to the
repository.  Every call the program makes to them is recorded as an `Event`
in a log, and the answer of each call is supplied by an `Env`, an arbitrary
deterministic environment whose answers may depend on the whole history of
calls made so far.  A Go `error` value is `Option GoError` (`none` is `nil`).
-/

namespace Thumbs

/-! ## Data model -/

/-- A non-nil Go `error`, identified by the text of its `Error()` method. -/
structure GoError where
  msg : String
  deriving DecidableEq, Repr

/-- The type `clientv3.LeaseID` (an `int64`). -/
abbrev LeaseID := Int

/-- Handle of an `endpoints.Manager` value. -/
abbrev Manager := Nat

/-- Handle of a `*clientv3.Client`. -/
abbrev Client := Nat

/-- Handle of a `net.Listener`. -/
abbrev Listener := Nat

/-- Calls that leave the repository: network, coordination store, gRPC
library, and the start of the keepalive goroutine. -/
inductive Event where
  | netListen (network address : String)
  | newManager (client : Client) (target : String)
  | grant (ttl : Int)
  | addEndpoint (em : Manager) (key addr : String) (lease : LeaseID)
  | goKeepAlive (lease : LeaseID)
  | grpcServe (conn : Listener)
  | deleteEndpoint (em : Manager) (key : String)
  | revoke (lease : LeaseID)
  | gracefulStop
  | stop
  deriving DecidableEq, Repr

/-- The answers of the outside world.  Each function receives the log of the
calls made before the one it answers. -/
structure Env where
  netListen : List Event → String → String → Except GoError Listener
  newManager : List Event → Client → String → Except GoError Manager
  grant : List Event → Int → Except GoError LeaseID
  addEndpoint : List Event → Manager → String → String → LeaseID → Option GoError
  deleteEndpoint : List Event → Manager → String → Option GoError
  revoke : List Event → LeaseID → Option GoError
  grpcServe : List Event → Listener → Option GoError

/-- The struct `Server` of `rpc/server.go` (the embedded `*grpc.Server` is
represented by the `grpcServe`, `gracefulStop` and `stop` events).  The field
`em` is an interface value: `none` is the nil interface. -/
structure Server where
  port : String
  registry : Client
  em : Option Manager
  leaseID : LeaseID
  ttl : Int
  deriving DecidableEq, Repr

/-- What a method call leaves behind: its return value, the receiver after the
call, and the log extended by the calls it made. -/
structure Ret (α : Type) where
  val : α
  srv : Server
  log : List Event

/-- How a call ends: it returns an `error` value, or the goroutine panics. -/
inductive Outcome where
  | returned (err : Option GoError)
  | panicked (reason : String)
  deriving DecidableEq, Repr

/-! ## Key and address formatting -/

/-- The package variable `serviceName`. -/
def serviceName : String := "service/thumbs"

/-- `fmt.Sprintf("%s/%s", serviceName, addr)`. -/
def serviceKey (addr : String) : String :=
  serviceName ++ "/" ++ addr

/-- `fmt.Sprintf("%s%s", "127.0.0.1", port)`. -/
def serviceAddr (port : String) : String :=
  "127.0.0.1" ++ port

/-- `fmt.Errorf(prefix ++ "%v", err)` for a format that ends in `%v`. -/
def errorfV (pre : String) (err : GoError) : GoError :=
  ⟨pre ++ err.msg⟩

/-! ## Registration -/

/-- `(*Server).register`.  `endpoints.NewManager` returns a nil manager
together with its error, so `s.em` is nil after a failed construction. -/
def Server.register (s : Server) (env : Env) (log : List Event) : Ret (Option GoError) :=
  let log1 := log ++ [Event.newManager s.registry serviceName]
  match env.newManager log s.registry serviceName with
  | .error err => ⟨some err, { s with em := none }, log1⟩
  | .ok m =>
    let s1 : Server := { s with em := some m }
    let addr := serviceAddr s1.port
    let svcKey := serviceKey addr
    let log2 := log1 ++ [Event.grant s1.ttl]
    match env.grant log1 s1.ttl with
    | .error err => ⟨some err, s1, log2⟩
    | .ok id =>
      let s2 : Server := { s1 with leaseID := id }
      let log3 := log2 ++ [Event.addEndpoint m svcKey addr s2.leaseID]
      match env.addEndpoint log2 m svcKey addr s2.leaseID with
      | some err => ⟨some err, s2, log3⟩
      | none => ⟨none, s2, log3 ++ [Event.goKeepAlive s2.leaseID]⟩

/-- `(*Server).unRegister`.  Calling a method on the nil interface `s.em`
panics before any store call is made. -/
def Server.unRegister (s : Server) (env : Env) (log : List Event) : Ret Outcome :=
  match s.em with
  | none => ⟨.panicked "runtime error: invalid memory address or nil pointer dereference", s, log⟩
  | some m =>
    let key := serviceKey (serviceAddr s.port)
    let log1 := log ++ [Event.deleteEndpoint m key]
    match env.deleteEndpoint log m key with
    | some err => ⟨.returned (some (errorfV "failed to delete endpoint: " err)), s, log1⟩
    | none =>
      let log2 := log1 ++ [Event.revoke s.leaseID]
      match env.revoke log1 s.leaseID with
      | some err => ⟨.returned (some (errorfV "failed to revoke lease: " err)), s, log2⟩
      | none => ⟨.returned none, s, log2⟩

/-- `(*Server).Serve`. -/
def Server.Serve (s : Server) (env : Env) (log : List Event) : Ret (Option GoError) :=
  let log1 := log ++ [Event.netListen "tcp" s.port]
  match env.netListen log "tcp" s.port with
  | .error err => ⟨some err, s, log1⟩
  | .ok conn =>
    match s.register env log1 with
    | ⟨some err, s1, log2⟩ => ⟨some err, s1, log2⟩
    | ⟨none, s1, log2⟩ => ⟨env.grpcServe log2 conn, s1, log2 ++ [Event.grpcServe conn]⟩

/-! ## The RPC-serve actor of `main` -/

/-- The `execute` function of the first actor added to the run group. -/
def rpcExecute (server : Server) (env : Env) (log : List Event) : Ret (Option GoError) :=
  server.Serve env log

/-- The `interrupt` function of the first actor added to the run group:
`server.GracefulStop()` followed by `server.Stop()`, both methods of the
embedded `*grpc.Server`.  The error argument is not used. -/
def rpcInterrupt (server : Server) (_err : Option GoError) (log : List Event) : Ret Unit :=
  ⟨(), server, log ++ [Event.gracefulStop] ++ [Event.stop]⟩

/-! ## Observations on logs -/

/-- The event is a call of `AddEndpoint`. -/
def Event.isAddEndpoint : Event → Bool
  | .addEndpoint _ _ _ _ => true
  | _ => false

/-- The event is the start of the keepalive goroutine. -/
def Event.isKeepAlive : Event → Bool
  | .goKeepAlive _ => true
  | _ => false

/-- The event is the gRPC accept loop. -/
def Event.isGrpcServe : Event → Bool
  | .grpcServe _ => true
  | _ => false

/-- The event is a call of `endpoints.NewManager`, the first step of `register`. -/
def Event.isNewManager : Event → Bool
  | .newManager _ _ => true
  | _ => false

/-- The event is one of the two store calls of `unRegister`. -/
def Event.isUnregisterCall : Event → Bool
  | .deleteEndpoint _ _ => true
  | .revoke _ => true
  | _ => false

/-- The event is a call of `Revoke`. -/
def Event.isRevoke : Event → Bool
  | .revoke _ => true
  | _ => false

/-- The event is a call of `DeleteEndpoint`. -/
def Event.isDeleteEndpoint : Event → Bool
  | .deleteEndpoint _ _ => true
  | _ => false

/-! ## Concrete servers and environments -/

/-- A server as `NewServer` returns it: no endpoint manager, lease ID zero. -/
def freshServer : Server :=
  { port := ":8080", registry := 1, em := none, leaseID := 0, ttl := 10 }

/-- A server holding an active registration. -/
def registeredServer : Server :=
  { port := ":8080", registry := 1, em := some 7, leaseID := 42, ttl := 10 }

/-- Every external call succeeds. -/
def envAllOk : Env where
  netListen := fun _ _ _ => .ok 3
  newManager := fun _ _ _ => .ok 7
  grant := fun _ _ => .ok 42
  addEndpoint := fun _ _ _ _ _ => none
  deleteEndpoint := fun _ _ _ => none
  revoke := fun _ _ => none
  grpcServe := fun _ _ => none

/-- The port is already taken. -/
def envListenFails : Env :=
  { envAllOk with netListen := fun _ _ _ => .error ⟨"address already in use"⟩ }

/-- The lease grant times out. -/
def envGrantFails : Env :=
  { envAllOk with grant := fun _ _ => .error ⟨"context deadline exceeded"⟩ }

/-- The endpoint creation times out. -/
def envAddEndpointFails : Env :=
  { envAllOk with addEndpoint := fun _ _ _ _ _ => some ⟨"context deadline exceeded"⟩ }

/-- Both store calls of the shutdown path fail. -/
def envStoreDown : Env :=
  { envAllOk with
    deleteEndpoint := fun _ _ _ => some ⟨"etcd unavailable"⟩
    revoke := fun _ _ => some ⟨"etcd unavailable"⟩ }

/-- Only the lease revocation fails. -/
def envRevokeFails : Env :=
  { envAllOk with revoke := fun _ _ => some ⟨"lease not found"⟩ }

/-! ## The run group -/

/-- What the `execute` function of an actor does once started: it returns by
itself, it blocks until its `interrupt` is called and returns then, or it
never returns. -/
inductive Execute where
  | returns (err : Option GoError)
  | untilInterrupted (err : Option GoError)
  | never
  deriving DecidableEq, Repr

/-- An actor of the run group.  Its `interrupt` function is observed through
the calls that `Run` makes to it. -/
structure Actor where
  execute : Execute
  deriving DecidableEq, Repr

/-- The `execute` call has returned by the time every actor was interrupted. -/
def Execute.returnsOnceInterrupted : Execute → Bool
  | .returns _ => true
  | .untilInterrupted _ => true
  | .never => false

/-- The actors whose `execute` returns without being interrupted, each with
its position in the group (counted from `i`) and the error it returns. -/
def completionsFrom : Nat → List Actor → List (Nat × Option GoError)
  | _, [] => []
  | i, a :: rest =>
    match a.execute with
    | .returns err => (i, err) :: completionsFrom (i + 1) rest
    | _ => completionsFrom (i + 1) rest

/-- What `Run` leaves behind: its return value (`none` when `Run` never
returns) and the calls of `interrupt` it made, each with the position of the
actor and the error passed, in the order of the calls. -/
structure RunResult where
  ret : Option (Option GoError)
  interrupts : List (Nat × Option GoError)
  deriving DecidableEq, Repr

/-- Modelled from the spec: `Run` of the run group (`run.Group.Run` of the
package `oklog/run`, whose code is not in the repository), after the five
steps of the orchestrator algorithm.  All `execute` functions are started;
`Run` waits for the first one to return, which the scheduler `sched` picks
among those that return by themselves, and keeps its error `e0`; it then
calls `interrupt e0` on every actor of the group, waits for all `execute`
calls to return, and returns `e0`.  When no `execute` ever returns `Run`
waits forever at the first step and interrupts nobody; when some `execute`
does not return after the interrupts, `Run` waits forever at the last step. -/
def Run (sched : Nat → Nat) (actors : List Actor) : RunResult :=
  let done := completionsFrom 0 actors
  match done[sched done.length % done.length]? with
  | none => ⟨none, []⟩
  | some (_, e0) =>
    let calls := (List.range actors.length).map fun j => (j, e0)
    if actors.all (fun a => a.execute.returnsOnceInterrupted) then ⟨some e0, calls⟩
    else ⟨none, calls⟩

/-- The three actors of `main` in a run where the RPC-serve actor fails at
startup: the metrics server and the signal watcher block until interrupted. -/
def actorsServeFails : List Actor :=
  [⟨.returns (some ⟨"address already in use"⟩)⟩, ⟨.untilInterrupted none⟩,
    ⟨.untilInterrupted none⟩]

/-! ## Key construction -/

theorem string_append_left_cancel (a b c : String) (h : a ++ b = a ++ c) : b = c := by
  have h1 : (a ++ b).data = (a ++ c).data := by rw [h]
  rw [String.data_append, String.data_append] at h1
  exact String.ext (List.append_cancel_left h1)

/-- C5: key construction is injective: equal keys come from equal addresses,
equal addresses from equal ports, hence two instances share the registry key
only if they are bound to the same address. -/
theorem serviceKey_collision_free :
    (∀ a1 a2 : String, serviceKey a1 = serviceKey a2 → a1 = a2) ∧
    (∀ p1 p2 : String, serviceAddr p1 = serviceAddr p2 → p1 = p2) ∧
    (∀ p1 p2 : String, serviceKey (serviceAddr p1) = serviceKey (serviceAddr p2) →
      serviceAddr p1 = serviceAddr p2 ∧ p1 = p2) := by
  have hk : ∀ a1 a2 : String, serviceKey a1 = serviceKey a2 → a1 = a2 := by
    intro a1 a2 h
    exact string_append_left_cancel _ _ _ h
  have ha : ∀ p1 p2 : String, serviceAddr p1 = serviceAddr p2 → p1 = p2 := by
    intro p1 p2 h
    exact string_append_left_cancel _ _ _ h
  exact ⟨hk, ha, fun p1 p2 h => ⟨hk _ _ h, ha _ _ (hk _ _ h)⟩⟩

/-! ## Registration and serving -/

/-- The calls made by `register`: one `NewManager`, no accept loop, and a
keepalive goroutine only when it returns nil. -/
theorem register_log (s : Server) (env : Env) (log : List Event) :
    ∃ evs, (s.register env log).log = log ++ evs ∧
      evs.countP Event.isNewManager = 1 ∧
      evs.countP Event.isGrpcServe = 0 ∧
      ((s.register env log).val ≠ none → evs.countP Event.isKeepAlive = 0) := by
  unfold Server.register
  rcases h1 : env.newManager log s.registry serviceName with e1 | m
  · exact ⟨[Event.newManager s.registry serviceName], by simp [Event.isNewManager,
      Event.isGrpcServe, Event.isKeepAlive]⟩
  · simp only []
    rcases h2 : env.grant (log ++ [Event.newManager s.registry serviceName]) s.ttl with e2 | id
    · exact ⟨[Event.newManager s.registry serviceName, Event.grant s.ttl], by
        simp [Event.isNewManager, Event.isGrpcServe, Event.isKeepAlive]⟩
    · simp only []
      rcases h3 : env.addEndpoint
          (log ++ [Event.newManager s.registry serviceName] ++ [Event.grant s.ttl]) m
          (serviceKey (serviceAddr s.port)) (serviceAddr s.port) id with _ | e3
      · exact ⟨[Event.newManager s.registry serviceName, Event.grant s.ttl,
          Event.addEndpoint m (serviceKey (serviceAddr s.port)) (serviceAddr s.port) id,
          Event.goKeepAlive id], by
          simp [Event.isNewManager, Event.isGrpcServe, Event.isKeepAlive]⟩
      · exact ⟨[Event.newManager s.registry serviceName, Event.grant s.ttl,
          Event.addEndpoint m (serviceKey (serviceAddr s.port)) (serviceAddr s.port) id], by
          simp [Event.isNewManager, Event.isGrpcServe, Event.isKeepAlive]⟩

theorem Serve_listen_error (s : Server) (env : Env) (log : List Event) (err : GoError)
    (h : env.netListen log "tcp" s.port = .error err) :
    s.Serve env log = ⟨some err, s, log ++ [Event.netListen "tcp" s.port]⟩ := by
  simp [Server.Serve, h]

theorem Serve_register_error (s : Server) (env : Env) (log : List Event) (conn : Listener)
    (err : GoError) (h : env.netListen log "tcp" s.port = .ok conn)
    (hr : (s.register env (log ++ [Event.netListen "tcp" s.port])).val = some err) :
    s.Serve env log = ⟨some err, (s.register env (log ++ [Event.netListen "tcp" s.port])).srv,
      (s.register env (log ++ [Event.netListen "tcp" s.port])).log⟩ := by
  simp only [Server.Serve, h]
  rcases hreg : s.register env (log ++ [Event.netListen "tcp" s.port]) with ⟨v, s1, l1⟩
  rw [hreg] at hr
  simp only at hr
  subst hr
  rfl

theorem Serve_register_ok (s : Server) (env : Env) (log : List Event) (conn : Listener)
    (h : env.netListen log "tcp" s.port = .ok conn)
    (hr : (s.register env (log ++ [Event.netListen "tcp" s.port])).val = none) :
    s.Serve env log =
      ⟨env.grpcServe (s.register env (log ++ [Event.netListen "tcp" s.port])).log conn,
        (s.register env (log ++ [Event.netListen "tcp" s.port])).srv,
        (s.register env (log ++ [Event.netListen "tcp" s.port])).log ++
          [Event.grpcServe conn]⟩ := by
  simp only [Server.Serve, h]
  rcases hreg : s.register env (log ++ [Event.netListen "tcp" s.port]) with ⟨v, s1, l1⟩
  rw [hreg] at hr
  simp only at hr
  subst hr
  rfl

theorem register_newManager_error (s : Server) (env : Env) (log : List Event) (err : GoError)
    (h1 : env.newManager log s.registry serviceName = .error err) :
    s.register env log =
      ⟨some err, { s with em := none }, log ++ [Event.newManager s.registry serviceName]⟩ := by
  simp [Server.register, h1]

theorem register_grant_error (s : Server) (env : Env) (log : List Event) (m : Manager)
    (err : GoError) (h1 : env.newManager log s.registry serviceName = .ok m)
    (h2 : env.grant (log ++ [Event.newManager s.registry serviceName]) s.ttl = .error err) :
    s.register env log =
      ⟨some err, { s with em := some m },
        log ++ [Event.newManager s.registry serviceName, Event.grant s.ttl]⟩ := by
  simp [Server.register, h1, h2]

theorem register_addEndpoint_error (s : Server) (env : Env) (log : List Event) (m : Manager)
    (id : LeaseID) (err : GoError)
    (h1 : env.newManager log s.registry serviceName = .ok m)
    (h2 : env.grant (log ++ [Event.newManager s.registry serviceName]) s.ttl = .ok id)
    (h3 : env.addEndpoint (log ++ [Event.newManager s.registry serviceName, Event.grant s.ttl])
      m (serviceKey (serviceAddr s.port)) (serviceAddr s.port) id = some err) :
    s.register env log =
      ⟨some err, { s with em := some m, leaseID := id },
        log ++ [Event.newManager s.registry serviceName, Event.grant s.ttl,
          Event.addEndpoint m (serviceKey (serviceAddr s.port)) (serviceAddr s.port) id]⟩ := by
  simp [Server.register, h1, h2, h3]

theorem register_all_ok (s : Server) (env : Env) (log : List Event) (m : Manager)
    (id : LeaseID)
    (h1 : env.newManager log s.registry serviceName = .ok m)
    (h2 : env.grant (log ++ [Event.newManager s.registry serviceName]) s.ttl = .ok id)
    (h3 : env.addEndpoint (log ++ [Event.newManager s.registry serviceName, Event.grant s.ttl])
      m (serviceKey (serviceAddr s.port)) (serviceAddr s.port) id = none) :
    s.register env log =
      ⟨none, { s with em := some m, leaseID := id },
        log ++ [Event.newManager s.registry serviceName, Event.grant s.ttl,
          Event.addEndpoint m (serviceKey (serviceAddr s.port)) (serviceAddr s.port) id,
          Event.goKeepAlive id]⟩ := by
  simp [Server.register, h1, h2, h3]

theorem register_ok_state (s : Server) (env : Env) (log : List Event)
    (h : (s.register env log).val = none) :
    ∃ m id, env.newManager log s.registry serviceName = .ok m ∧
      env.grant (log ++ [Event.newManager s.registry serviceName]) s.ttl = .ok id ∧
      env.addEndpoint (log ++ [Event.newManager s.registry serviceName, Event.grant s.ttl])
        m (serviceKey (serviceAddr s.port)) (serviceAddr s.port) id = none ∧
      (s.register env log).srv = { s with em := some m, leaseID := id } ∧
      (s.register env log).log = log ++ [Event.newManager s.registry serviceName,
        Event.grant s.ttl,
        Event.addEndpoint m (serviceKey (serviceAddr s.port)) (serviceAddr s.port) id,
        Event.goKeepAlive id] := by
  rcases h1 : env.newManager log s.registry serviceName with e1 | m
  · rw [register_newManager_error s env log e1 h1] at h
    exact absurd h (by simp)
  · rcases h2 : env.grant (log ++ [Event.newManager s.registry serviceName]) s.ttl with e2 | id
    · rw [register_grant_error s env log m e2 h1 h2] at h
      exact absurd h (by simp)
    · rcases h3 : env.addEndpoint
          (log ++ [Event.newManager s.registry serviceName, Event.grant s.ttl]) m
          (serviceKey (serviceAddr s.port)) (serviceAddr s.port) id with _ | e3
      · rw [register_all_ok s env log m id h1 h2 h3]
        exact ⟨m, id, rfl, rfl, h3, rfl, rfl⟩
      · rw [register_addEndpoint_error s env log m id e3 h1 h2 h3] at h
        exact absurd h (by simp)

theorem unRegister_some (s : Server) (env : Env) (log : List Event) (m : Manager)
    (hm : s.em = some m) :
    s.unRegister env log =
      match env.deleteEndpoint log m (serviceKey (serviceAddr s.port)) with
      | some err => ⟨.returned (some (errorfV "failed to delete endpoint: " err)), s,
          log ++ [Event.deleteEndpoint m (serviceKey (serviceAddr s.port))]⟩
      | none =>
        match env.revoke (log ++ [Event.deleteEndpoint m (serviceKey (serviceAddr s.port))])
            s.leaseID with
        | some err => ⟨.returned (some (errorfV "failed to revoke lease: " err)), s,
            log ++ [Event.deleteEndpoint m (serviceKey (serviceAddr s.port))] ++
              [Event.revoke s.leaseID]⟩
        | none => ⟨.returned none, s,
            log ++ [Event.deleteEndpoint m (serviceKey (serviceAddr s.port))] ++
              [Event.revoke s.leaseID]⟩ := by
  simp only [Server.unRegister, hm]

/-! ## Claims on `Serve` and `register` -/

/-- C1: `Serve` enters the gRPC accept loop only after `register` returned
nil.  When `net.Listen` fails, `Serve` returns that error and makes no further
call; when `register` fails, `Serve` returns the error of `register`, having
called `register` once and never served; when both succeed the accept loop is
the next call after those of `register`.  Whenever the accept loop appears
among the calls of `Serve`, the listener was bound and `register` returned nil. -/
theorem Serve_accepts_only_after_register (s : Server) (env : Env) (log : List Event) :
    (∀ err, env.netListen log "tcp" s.port = .error err →
      (s.Serve env log).val = some err ∧
      (s.Serve env log).log = log ++ [Event.netListen "tcp" s.port]) ∧
    (∀ conn err, env.netListen log "tcp" s.port = .ok conn →
      (s.register env (log ++ [Event.netListen "tcp" s.port])).val = some err →
      (s.Serve env log).val = some err ∧
      ∃ evs, (s.Serve env log).log = log ++ [Event.netListen "tcp" s.port] ++ evs ∧
        evs.countP Event.isNewManager = 1 ∧ evs.countP Event.isGrpcServe = 0) ∧
    (∀ conn, env.netListen log "tcp" s.port = .ok conn →
      (s.register env (log ++ [Event.netListen "tcp" s.port])).val = none →
      (s.Serve env log).val =
        env.grpcServe (s.register env (log ++ [Event.netListen "tcp" s.port])).log conn ∧
      (s.Serve env log).log =
        (s.register env (log ++ [Event.netListen "tcp" s.port])).log ++
          [Event.grpcServe conn]) ∧
    (∀ evs, (s.Serve env log).log = log ++ evs → evs.countP Event.isGrpcServe ≠ 0 →
      ∃ conn, env.netListen log "tcp" s.port = .ok conn ∧
        (s.register env (log ++ [Event.netListen "tcp" s.port])).val = none) := by
  refine ⟨?_, ?_, ?_, ?_⟩
  · intro err h
    rw [Serve_listen_error s env log err h]
    exact ⟨rfl, rfl⟩
  · intro conn err h hr
    rw [Serve_register_error s env log conn err h hr]
    obtain ⟨evs, hl, hn, hg, _⟩ := register_log s env (log ++ [Event.netListen "tcp" s.port])
    exact ⟨rfl, evs, hl, hn, hg⟩
  · intro conn h hr
    rw [Serve_register_ok s env log conn h hr]
    exact ⟨rfl, rfl⟩
  · intro evs hl hne
    rcases h : env.netListen log "tcp" s.port with e | conn
    · rw [Serve_listen_error s env log e h] at hl
      have := List.append_cancel_left hl
      subst this
      simp [Event.isGrpcServe] at hne
    · refine ⟨conn, rfl, ?_⟩
      rcases hr : (s.register env (log ++ [Event.netListen "tcp" s.port])).val with _ | e
      · rfl
      · exfalso
        rw [Serve_register_error s env log conn e h hr] at hl
        obtain ⟨evs2, hl2, _, hg, _⟩ :=
          register_log s env (log ++ [Event.netListen "tcp" s.port])
        simp only at hl
        rw [hl2, List.append_assoc] at hl
        have := List.append_cancel_left hl
        subst this
        simp [Event.isGrpcServe, hg] at hne

/-- C1, at concrete inputs: a taken port, a failed lease grant, and a start in
which every call succeeds. -/
theorem Serve_accepts_only_after_register_witness :
    ((freshServer.Serve envListenFails []).val = some ⟨"address already in use"⟩ ∧
      (freshServer.Serve envListenFails []).log = [] ++ [Event.netListen "tcp" ":8080"]) ∧
    (freshServer.Serve envGrantFails []).val = some ⟨"context deadline exceeded"⟩ ∧
    ((freshServer.Serve envAllOk []).val = none ∧
      (freshServer.Serve envAllOk []).log =
        (freshServer.register envAllOk ([] ++ [Event.netListen "tcp" ":8080"])).log ++
          [Event.grpcServe 3]) :=
  ⟨(Serve_accepts_only_after_register freshServer envListenFails []).1 _ rfl,
   ((Serve_accepts_only_after_register freshServer envGrantFails []).2.1 3 _ rfl rfl).1,
   (Serve_accepts_only_after_register freshServer envAllOk []).2.2.1 3 rfl rfl⟩

/-- C2: when the lease grant succeeds, `register` has requested a lease of
exactly `s.ttl` seconds and then calls `AddEndpoint` exactly once, with the key
`serviceKey (serviceAddr s.port)`, the address `serviceAddr s.port` and the ID
of the granted lease, which is also the ID stored in `s.leaseID`; when
`AddEndpoint` succeeds as well, `register` returns nil. -/
theorem register_grant_then_addEndpoint (s : Server) (env : Env) (log : List Event)
    (m : Manager) (id : LeaseID)
    (hm : env.newManager log s.registry serviceName = .ok m)
    (hg : env.grant (log ++ [Event.newManager s.registry serviceName]) s.ttl = .ok id) :
    ∃ rest, (s.register env log).log =
        log ++ [Event.newManager s.registry serviceName, Event.grant s.ttl,
          Event.addEndpoint m (serviceKey (serviceAddr s.port)) (serviceAddr s.port) id] ++
          rest ∧
      ([Event.newManager s.registry serviceName, Event.grant s.ttl,
          Event.addEndpoint m (serviceKey (serviceAddr s.port)) (serviceAddr s.port) id] ++
          rest).countP Event.isAddEndpoint = 1 ∧
      (s.register env log).srv.leaseID = id ∧
      (env.addEndpoint (log ++ [Event.newManager s.registry serviceName, Event.grant s.ttl])
          m (serviceKey (serviceAddr s.port)) (serviceAddr s.port) id = none →
        (s.register env log).val = none ∧ rest = [Event.goKeepAlive id]) := by
  rcases h3 : env.addEndpoint
      (log ++ [Event.newManager s.registry serviceName, Event.grant s.ttl]) m
      (serviceKey (serviceAddr s.port)) (serviceAddr s.port) id with _ | e3
  · rw [register_all_ok s env log m id hm hg h3]
    exact ⟨[Event.goKeepAlive id], by simp, by simp [Event.isAddEndpoint], rfl,
      fun _ => ⟨rfl, rfl⟩⟩
  · rw [register_addEndpoint_error s env log m id e3 hm hg h3]
    exact ⟨[], by simp, by simp [Event.isAddEndpoint], rfl, fun h => by simp at h⟩

/-- C2, at a concrete input: every store call succeeds for the fresh server. -/
theorem register_grant_then_addEndpoint_witness :
    ∃ rest, (freshServer.register envAllOk []).log =
        [] ++ [Event.newManager 1 serviceName, Event.grant 10,
          Event.addEndpoint 7 (serviceKey (serviceAddr ":8080")) (serviceAddr ":8080") 42] ++
          rest ∧
      ([Event.newManager 1 serviceName, Event.grant 10,
          Event.addEndpoint 7 (serviceKey (serviceAddr ":8080")) (serviceAddr ":8080") 42] ++
          rest).countP Event.isAddEndpoint = 1 ∧
      (freshServer.register envAllOk []).srv.leaseID = 42 ∧
      (envAllOk.addEndpoint ([] ++ [Event.newManager 1 serviceName, Event.grant 10])
          7 (serviceKey (serviceAddr ":8080")) (serviceAddr ":8080") 42 = none →
        (freshServer.register envAllOk []).val = none ∧ rest = [Event.goKeepAlive 42]) :=
  register_grant_then_addEndpoint freshServer envAllOk [] 7 42 rfl rfl

/-- C3, as stated, fails: after a failed lease grant the field `s.em` holds the
new manager instead of its earlier nil value, and after a failed endpoint
creation `s.leaseID` holds the granted ID instead of its earlier zero. -/
theorem register_failure_changes_fields :
    envGrantFails.grant ([] ++ [Event.newManager 1 serviceName]) 10 =
        .error ⟨"context deadline exceeded"⟩ ∧
    (freshServer.register envGrantFails []).srv.em ≠ freshServer.em ∧
    envAddEndpointFails.addEndpoint
        ([] ++ [Event.newManager 1 serviceName, Event.grant 10]) 7
        (serviceKey (serviceAddr ":8080")) (serviceAddr ":8080") 42 =
        some ⟨"context deadline exceeded"⟩ ∧
    (freshServer.register envAddEndpointFails []).srv.leaseID ≠ freshServer.leaseID := by
  refine ⟨rfl, ?_, rfl, ?_⟩
  · decide
  · decide

/-- C3, amended: if the lease grant or the endpoint creation fails, `register`
returns that call's non-nil error and starts no keepalive loop; `s.em` holds
the manager built by this call, `s.leaseID` keeps its earlier value when the
grant failed and holds the granted ID when the endpoint creation failed; the
other fields are unchanged. -/
theorem register_failure_state (s : Server) (env : Env) (log : List Event) (m : Manager)
    (hm : env.newManager log s.registry serviceName = .ok m)
    (hfail : (∃ err, env.grant (log ++ [Event.newManager s.registry serviceName]) s.ttl =
        .error err) ∨
      (∃ id err, env.grant (log ++ [Event.newManager s.registry serviceName]) s.ttl = .ok id ∧
        env.addEndpoint (log ++ [Event.newManager s.registry serviceName, Event.grant s.ttl])
          m (serviceKey (serviceAddr s.port)) (serviceAddr s.port) id = some err)) :
    (s.register env log).val ≠ none ∧
    (∃ evs, (s.register env log).log = log ++ evs ∧ evs.countP Event.isKeepAlive = 0) ∧
    (s.register env log).srv.em = some m ∧
    (s.register env log).srv.port = s.port ∧
    (s.register env log).srv.registry = s.registry ∧
    (s.register env log).srv.ttl = s.ttl ∧
    (∀ err, env.grant (log ++ [Event.newManager s.registry serviceName]) s.ttl = .error err →
      (s.register env log).val = some err ∧ (s.register env log).srv.leaseID = s.leaseID) ∧
    (∀ id err, env.grant (log ++ [Event.newManager s.registry serviceName]) s.ttl = .ok id →
      env.addEndpoint (log ++ [Event.newManager s.registry serviceName, Event.grant s.ttl])
        m (serviceKey (serviceAddr s.port)) (serviceAddr s.port) id = some err →
      (s.register env log).val = some err ∧ (s.register env log).srv.leaseID = id) := by
  rcases hfail with ⟨e, hg⟩ | ⟨id, e, hg, ha⟩
  · rw [register_grant_error s env log m e hm hg]
    refine ⟨by simp, ⟨_, rfl, by simp [Event.isKeepAlive]⟩, rfl, rfl, rfl, rfl, ?_, ?_⟩
    · intro err h
      rw [hg] at h
      cases h
      exact ⟨rfl, rfl⟩
    · intro id err h
      rw [hg] at h
      cases h
  · rw [register_addEndpoint_error s env log m id e hm hg ha]
    refine ⟨by simp, ⟨_, rfl, by simp [Event.isKeepAlive]⟩, rfl, rfl, rfl, rfl, ?_, ?_⟩
    · intro err h
      rw [hg] at h
      cases h
    · intro id2 err h h2
      rw [hg] at h
      cases h
      rw [ha] at h2
      cases h2
      exact ⟨rfl, rfl⟩

/-- C3 amended, at a concrete input: the lease grant times out. -/
theorem register_failure_state_witness :
    (freshServer.register envGrantFails []).val ≠ none ∧
    (freshServer.register envGrantFails []).srv.em = some 7 :=
  have h := register_failure_state freshServer envGrantFails [] 7 rfl
    (Or.inl ⟨⟨"context deadline exceeded"⟩, rfl⟩)
  ⟨h.1, h.2.2.1⟩

/-! ## Claims on shutdown and `unRegister` -/

/-- C6: the interrupt function of the RPC-serve actor performs the graceful
drain before the hard stop, but these are its only two calls: for every error
argument it makes no store call and leaves the server unchanged, whereas
`unRegister` on a server holding a registration always begins with
`DeleteEndpoint`.  Hence `unRegister` is not triggered by the interrupt. -/
theorem rpcInterrupt_skips_unRegister (server : Server) (err : Option GoError)
    (env : Env) (log : List Event) :
    (rpcInterrupt server err log).log = log ++ [Event.gracefulStop, Event.stop] ∧
    (rpcInterrupt server err log).srv = server ∧
    [Event.gracefulStop, Event.stop].countP Event.isUnregisterCall = 0 ∧
    (∀ m, server.em = some m → ∃ evs, (server.unRegister env log).log =
      log ++ Event.deleteEndpoint m (serviceKey (serviceAddr server.port)) :: evs) := by
  refine ⟨by simp [rpcInterrupt], rfl, by simp [Event.isUnregisterCall], ?_⟩
  intro m hm
  rw [unRegister_some server env log m hm]
  rcases env.deleteEndpoint log m (serviceKey (serviceAddr server.port)) with _ | e1
  · rcases env.revoke
      (log ++ [Event.deleteEndpoint m (serviceKey (serviceAddr server.port))])
      server.leaseID with _ | e2
    · exact ⟨[Event.revoke server.leaseID], by simp⟩
    · exact ⟨[Event.revoke server.leaseID], by simp⟩
  · exact ⟨[], by simp⟩

/-- C7, as stated, fails: when `DeleteEndpoint` fails on a registered server,
`unRegister` returns at once and `Revoke` is never attempted. -/
theorem unRegister_delete_failure_skips_revoke :
    envStoreDown.deleteEndpoint [] 7 (serviceKey (serviceAddr ":8080")) =
        some ⟨"etcd unavailable"⟩ ∧
    (registeredServer.unRegister envStoreDown []).log =
        [Event.deleteEndpoint 7 "service/thumbs/127.0.0.1:8080"] ∧
    (registeredServer.unRegister envStoreDown []).log.countP Event.isRevoke = 0 ∧
    (registeredServer.unRegister envStoreDown []).val =
        .returned (some ⟨"failed to delete endpoint: etcd unavailable"⟩) := by
  refine ⟨rfl, ?_, ?_, ?_⟩ <;> decide

/-- C7, amended: on a server holding an active registration `unRegister`
always attempts `DeleteEndpoint(registryKey)` first and attempts
`Revoke(leaseID)` only when the delete succeeded; it returns nil exactly when
both succeed, and otherwise returns the error of the one call that failed,
prefixed by the name of the failed step.  The server is left unchanged. -/
theorem unRegister_sequential (s : Server) (env : Env) (log : List Event) (m : Manager)
    (hm : s.em = some m) :
    (∀ err, env.deleteEndpoint log m (serviceKey (serviceAddr s.port)) = some err →
      (s.unRegister env log).val =
        .returned (some (errorfV "failed to delete endpoint: " err)) ∧
      (s.unRegister env log).log =
        log ++ [Event.deleteEndpoint m (serviceKey (serviceAddr s.port))]) ∧
    (env.deleteEndpoint log m (serviceKey (serviceAddr s.port)) = none →
      (s.unRegister env log).log =
        log ++ [Event.deleteEndpoint m (serviceKey (serviceAddr s.port)),
          Event.revoke s.leaseID] ∧
      (∀ err, env.revoke (log ++ [Event.deleteEndpoint m (serviceKey (serviceAddr s.port))])
          s.leaseID = some err →
        (s.unRegister env log).val =
          .returned (some (errorfV "failed to revoke lease: " err)))) ∧
    ((s.unRegister env log).val = .returned none ↔
      (env.deleteEndpoint log m (serviceKey (serviceAddr s.port)) = none ∧
        env.revoke (log ++ [Event.deleteEndpoint m (serviceKey (serviceAddr s.port))])
          s.leaseID = none)) ∧
    (s.unRegister env log).srv = s := by
  rw [unRegister_some s env log m hm]
  rcases env.deleteEndpoint log m (serviceKey (serviceAddr s.port)) with _ | e1
  · rcases env.revoke (log ++ [Event.deleteEndpoint m (serviceKey (serviceAddr s.port))])
      s.leaseID with _ | e2
    · simp
    · simp
  · simp

/-- C7 amended, at a concrete input: only the revocation fails. -/
theorem unRegister_sequential_witness :
    (registeredServer.unRegister envRevokeFails []).log =
        [] ++ [Event.deleteEndpoint 7 (serviceKey (serviceAddr ":8080")), Event.revoke 42] ∧
    (registeredServer.unRegister envRevokeFails []).val =
        .returned (some (errorfV "failed to revoke lease: " ⟨"lease not found"⟩)) :=
  have h := (unRegister_sequential registeredServer envRevokeFails [] 7 rfl).2.1 rfl
  ⟨h.1, h.2 _ rfl⟩

/-- C8: on a server whose `register` never succeeded (`s.em` nil, `s.leaseID`
zero) `unRegister` makes no store call, but it does not return nil: the method
call on the nil `s.em` panics. -/
theorem unRegister_unregistered_panics (s : Server) (env : Env) (log : List Event)
    (hem : s.em = none) (_hlease : s.leaseID = 0) :
    (s.unRegister env log).val =
        .panicked "runtime error: invalid memory address or nil pointer dereference" ∧
    (s.unRegister env log).val ≠ .returned none ∧
    (s.unRegister env log).log = log := by
  simp [Server.unRegister, hem]

/-- C8, at a concrete input: the server as `NewServer` returns it. -/
theorem unRegister_unregistered_panics_witness :
    (freshServer.unRegister envAllOk []).val ≠ .returned none ∧
    (freshServer.unRegister envAllOk []).log = [] :=
  (unRegister_unregistered_panics freshServer envAllOk [] rfl rfl).2

/-- C9, as stated, fails: after a successful `register` and a successful
`unRegister`, the second `unRegister` calls `DeleteEndpoint` and `Revoke`
again, for the same key and the same lease. -/
theorem second_unRegister_repeats_calls :
    (freshServer.register envAllOk []).val = none ∧
    ((freshServer.register envAllOk []).srv.unRegister envAllOk
        (freshServer.register envAllOk []).log).val = .returned none ∧
    (((freshServer.register envAllOk []).srv.unRegister envAllOk
        (freshServer.register envAllOk []).log).srv.unRegister envAllOk
        ((freshServer.register envAllOk []).srv.unRegister envAllOk
          (freshServer.register envAllOk []).log).log).log =
      ((freshServer.register envAllOk []).srv.unRegister envAllOk
          (freshServer.register envAllOk []).log).log ++
        [Event.deleteEndpoint 7 "service/thumbs/127.0.0.1:8080", Event.revoke 42] := by
  refine ⟨?_, ?_, ?_⟩ <;> decide

/-- C9, amended: after a successful `register` followed by a successful
`unRegister` the server still holds the manager and the lease ID, and a second
`unRegister` again calls `DeleteEndpoint` for the same key and, when that
succeeds, `Revoke` for the same lease; it returns nil exactly when both of
these calls succeed. -/
theorem second_unRegister_same_calls (s : Server) (env : Env) (log : List Event)
    (hreg : (s.register env log).val = none)
    (hun : ((s.register env log).srv.unRegister env (s.register env log).log).val =
      .returned none) :
    ∃ m id log2,
      (s.register env log).srv = { s with em := some m, leaseID := id } ∧
      (s.register env log).srv.unRegister env (s.register env log).log =
        ⟨.returned none, { s with em := some m, leaseID := id }, log2⟩ ∧
      (∃ evs, (({ s with em := some m, leaseID := id } : Server).unRegister env log2).log =
        log2 ++ Event.deleteEndpoint m (serviceKey (serviceAddr s.port)) :: evs ∧
        (env.deleteEndpoint log2 m (serviceKey (serviceAddr s.port)) = none →
          evs = [Event.revoke id])) ∧
      ((({ s with em := some m, leaseID := id } : Server).unRegister env log2).val =
          .returned none ↔
        (env.deleteEndpoint log2 m (serviceKey (serviceAddr s.port)) = none ∧
          env.revoke (log2 ++ [Event.deleteEndpoint m (serviceKey (serviceAddr s.port))])
            id = none)) := by
  obtain ⟨m, id, _, _, _, hsrv, hlog⟩ := register_ok_state s env log hreg
  rw [hsrv] at hun ⊢
  have hu1 := unRegister_some ({ s with em := some m, leaseID := id } : Server) env
    (s.register env log).log m rfl
  rcases hd : env.deleteEndpoint (s.register env log).log m
      (serviceKey (serviceAddr s.port)) with _ | e1
  · rcases hr : env.revoke ((s.register env log).log ++
        [Event.deleteEndpoint m (serviceKey (serviceAddr s.port))]) id with _ | e2
    · simp only [hd, hr] at hu1
      refine ⟨m, id, _, rfl, hu1, ?_, ?_⟩
      · rw [unRegister_some _ env _ m rfl]
        rcases env.deleteEndpoint ((s.register env log).log ++
            [Event.deleteEndpoint m (serviceKey (serviceAddr s.port))] ++
            [Event.revoke id]) m (serviceKey (serviceAddr s.port)) with _ | e3
        · rcases env.revoke ((s.register env log).log ++
              [Event.deleteEndpoint m (serviceKey (serviceAddr s.port))] ++
              [Event.revoke id] ++
              [Event.deleteEndpoint m (serviceKey (serviceAddr s.port))]) id with _ | e4
          · exact ⟨[Event.revoke id], by simp, fun _ => rfl⟩
          · exact ⟨[Event.revoke id], by simp, fun _ => rfl⟩
        · exact ⟨[], by simp, fun h => by simp at h⟩
      · rw [unRegister_some _ env _ m rfl]
        rcases env.deleteEndpoint ((s.register env log).log ++
            [Event.deleteEndpoint m (serviceKey (serviceAddr s.port))] ++
            [Event.revoke id]) m (serviceKey (serviceAddr s.port)) with _ | e3
        · rcases env.revoke ((s.register env log).log ++
              [Event.deleteEndpoint m (serviceKey (serviceAddr s.port))] ++
              [Event.revoke id] ++
              [Event.deleteEndpoint m (serviceKey (serviceAddr s.port))]) id with _ | e4
          · simp
          · simp
        · simp
    · rw [hu1] at hun
      simp [hd, hr] at hun
  · rw [hu1] at hun
    simp [hd] at hun

/-- C9 amended, at a concrete input: every store call succeeds. -/
theorem second_unRegister_same_calls_witness :
    ∃ m id log2,
      (freshServer.register envAllOk []).srv =
        { freshServer with em := some m, leaseID := id } ∧
      (freshServer.register envAllOk []).srv.unRegister envAllOk
          (freshServer.register envAllOk []).log =
        ⟨.returned none, { freshServer with em := some m, leaseID := id }, log2⟩ ∧
      (∃ evs, (({ freshServer with em := some m, leaseID := id } : Server).unRegister
          envAllOk log2).log =
        log2 ++ Event.deleteEndpoint m (serviceKey (serviceAddr freshServer.port)) :: evs ∧
        (envAllOk.deleteEndpoint log2 m (serviceKey (serviceAddr freshServer.port)) = none →
          evs = [Event.revoke id])) ∧
      ((({ freshServer with em := some m, leaseID := id } : Server).unRegister
          envAllOk log2).val = .returned none ↔
        (envAllOk.deleteEndpoint log2 m (serviceKey (serviceAddr freshServer.port)) = none ∧
          envAllOk.revoke
            (log2 ++ [Event.deleteEndpoint m (serviceKey (serviceAddr freshServer.port))])
            id = none)) :=
  second_unRegister_same_calls freshServer envAllOk [] rfl rfl

/-! ## The registered key -/

/-- C4: a server listening on `":" ++ n` registers the address
`"127.0.0.1:" ++ n` under the key `serviceName ++ "/" ++ address`, which is
`"service/thumbs/127.0.0.1:" ++ n`; for port 8080 the key is
`"service/thumbs/127.0.0.1:8080"`.  A successful `register` of such a server
passes exactly this key and this address to `AddEndpoint`. -/
theorem serviceKey_serviceAddr_port (n : String) :
    serviceAddr (":" ++ n) = "127.0.0.1:" ++ n ∧
    serviceKey (serviceAddr (":" ++ n)) = serviceName ++ "/" ++ serviceAddr (":" ++ n) ∧
    serviceKey (serviceAddr (":" ++ n)) = "service/thumbs/127.0.0.1:" ++ n ∧
    serviceKey (serviceAddr (":" ++ "8080")) = "service/thumbs/127.0.0.1:8080" ∧
    (∀ (s : Server) (env : Env) (log : List Event), s.port = ":" ++ n →
      (s.register env log).val = none →
      ∃ m id, Event.addEndpoint m ("service/thumbs/127.0.0.1:" ++ n) ("127.0.0.1:" ++ n) id ∈
        (s.register env log).log) := by
  have ha : serviceAddr (":" ++ n) = "127.0.0.1:" ++ n := by
    apply String.ext
    simp [serviceAddr, String.data_append]
  have hk : serviceKey (serviceAddr (":" ++ n)) = "service/thumbs/127.0.0.1:" ++ n := by
    apply String.ext
    simp [serviceKey, serviceAddr, serviceName, String.data_append]
  refine ⟨ha, rfl, hk, by decide, ?_⟩
  intro s env log hp hreg
  obtain ⟨m, id, _, _, _, _, hlog⟩ := register_ok_state s env log hreg
  refine ⟨m, id, ?_⟩
  rw [hlog, hp, hk, ha]
  simp

/-- C4, at a concrete input: the fresh server on port 8080 registers under
`"service/thumbs/127.0.0.1:8080"`. -/
theorem serviceKey_serviceAddr_port_witness :
    ∃ m id, Event.addEndpoint m ("service/thumbs/127.0.0.1:" ++ "8080")
        ("127.0.0.1:" ++ "8080") id ∈ (freshServer.register envAllOk []).log :=
  (serviceKey_serviceAddr_port "8080").2.2.2.2 freshServer envAllOk [] (by decide) rfl

/-! ## The run group: one failing actor -/

theorem completionsFrom_blocked (i : Nat) (actors : List Actor)
    (h : ∀ a ∈ actors, ∃ e, a.execute = .untilInterrupted e) :
    completionsFrom i actors = [] := by
  induction actors generalizing i with
  | nil => rfl
  | cons a rest ih =>
    obtain ⟨e, he⟩ := h a (List.mem_cons_self a rest)
    simp only [completionsFrom, he]
    exact ih (i + 1) (fun b hb => h b (List.mem_cons_of_mem a hb))

theorem completionsFrom_single (i : Nat) (pre post : List Actor) (E : Option GoError)
    (hpre : ∀ a ∈ pre, ∃ e, a.execute = .untilInterrupted e)
    (hpost : ∀ a ∈ post, ∃ e, a.execute = .untilInterrupted e) :
    completionsFrom i (pre ++ ⟨.returns E⟩ :: post) = [(i + pre.length, E)] := by
  induction pre generalizing i with
  | nil =>
    simp only [List.nil_append, completionsFrom, List.length_nil, Nat.add_zero]
    rw [completionsFrom_blocked (i + 1) post hpost]
  | cons a rest ih =>
    obtain ⟨e, he⟩ := hpre a (List.mem_cons_self a rest)
    show completionsFrom i (a :: (rest ++ ⟨.returns E⟩ :: post)) = _
    simp only [completionsFrom, he]
    rw [ih (i + 1) (fun b hb => hpre b (List.mem_cons_of_mem a hb))]
    simp only [List.length_cons]
    congr 2
    omega

theorem interrupts_once (n j : Nat) (E : Option GoError) (hj : j < n) :
    ((List.range n).map fun k => (k, E)).countP (fun c => c.1 = j) = 1 := by
  rw [List.countP_map]
  have h1 : List.count j (List.range n) = 1 :=
    List.count_eq_one_of_mem (List.nodup_range n) (List.mem_range.mpr hj)
  rw [← h1, List.count]
  apply List.countP_congr
  intro k _
  simp

/-- C10: in a group of N actors in which exactly one `execute` returns, with
error `E`, and every other `execute` blocks until interrupted, `Run` returns
(it does not wait forever) and returns `E`; `interrupt` is called exactly once
on every actor, the one that returned `E` included, each time with `E`, and
there are N calls in all.  This holds for every scheduler. -/
theorem Run_one_failing_actor (sched : Nat → Nat) (pre post : List Actor)
    (E : Option GoError)
    (hpre : ∀ a ∈ pre, ∃ e, a.execute = .untilInterrupted e)
    (hpost : ∀ a ∈ post, ∃ e, a.execute = .untilInterrupted e) :
    (Run sched (pre ++ ⟨.returns E⟩ :: post)).ret = some E ∧
    (∀ j, j < (pre ++ ⟨.returns E⟩ :: post).length →
      (Run sched (pre ++ ⟨.returns E⟩ :: post)).interrupts.countP (fun c => c.1 = j) = 1) ∧
    (∀ c ∈ (Run sched (pre ++ ⟨.returns E⟩ :: post)).interrupts, c.2 = E) ∧
    (Run sched (pre ++ ⟨.returns E⟩ :: post)).interrupts.length =
      (pre ++ ⟨.returns E⟩ :: post).length := by
  have hall : (pre ++ (⟨.returns E⟩ : Actor) :: post).all
      (fun a => a.execute.returnsOnceInterrupted) = true := by
    rw [List.all_eq_true]
    intro a ha
    rcases List.mem_append.mp ha with h | h
    · obtain ⟨e, he⟩ := hpre a h
      simp [he, Execute.returnsOnceInterrupted]
    · rcases List.mem_cons.mp h with h | h
      · subst h
        rfl
      · obtain ⟨e, he⟩ := hpost a h
        simp [he, Execute.returnsOnceInterrupted]
  have hrun : Run sched (pre ++ ⟨.returns E⟩ :: post) =
      ⟨some E, (List.range (pre ++ (⟨.returns E⟩ : Actor) :: post).length).map
        fun j => (j, E)⟩ := by
    simp only [Run, completionsFrom_single 0 pre post E hpre hpost, List.length_singleton,
      Nat.mod_one, List.getElem?_cons_zero, hall, if_true]
  rw [hrun]
  refine ⟨rfl, ?_, ?_, ?_⟩
  · intro j hj
    exact interrupts_once _ j E hj
  · intro c hc
    obtain ⟨k, _, hk⟩ := List.mem_map.mp hc
    rw [← hk]
  · simp

/-- C10, at a concrete input: the RPC-serve actor fails at startup while the
metrics server and the signal watcher block. -/
theorem Run_one_failing_actor_witness :
    (Run (fun _ => 0) actorsServeFails).ret = some (some ⟨"address already in use"⟩) ∧
    (Run (fun _ => 0) actorsServeFails).interrupts.length = 3 :=
  have h := Run_one_failing_actor (fun _ => 0) []
    [⟨.untilInterrupted none⟩, ⟨.untilInterrupted none⟩] (some ⟨"address already in use"⟩)
    (by simp) (by simp)
  ⟨h.1, h.2.2.2⟩

end Thumbs
